import Mathlib

/-!
# Verification of the interruption/resume state machine of `src/api/chatkit_server.py`

This file shallowly embeds the control logic of `MyChatKitServer` (the
decision-handling `action` method, the turn-handling `respond` method, the
run-state persistence helpers `save_run_state` / `load_run_state` /
`delete_run_state`, the interruption matcher, and the event-identity
normalizer `fix_chatkit_event_ids`) and proves or refutes the specified
properties against the embedding.

External collaborators (the agent runtime, the OpenAI session, Supabase) are
modelled as explicit parameters: the run-state table is a list of rows, the
runtime's event stream is a list of events, and the reconstruction function
`RunState.from_json` (library code) is an abstract function argument.
-/

namespace ChatKitServer

/-- Python truthiness of an optional string: `None` and `""` are falsy. -/
def truthy : Option String → Bool
  | none => false
  | some s => s ≠ ""

/-! ## Suspensions (interruptions) and the matcher

An interruption as inspected by `MyChatKitServer.action`: a wrapper object
(whose own identifier is `wrapperId`) optionally carrying a `raw_item`
tool-call record with a `call_id` and a tool name (lines 512-524). -/

/-- The raw tool-call record carried by an interruption (`interruption.raw_item`). -/
structure RawItem where
  callId : Option String
  toolName : String
  deriving DecidableEq, Repr

/-- An interruption: the wrapper has its own id, and optionally a raw tool-call
record; the matcher only ever reads `rawItem`. -/
structure Suspension where
  wrapperId : String
  rawItem : Option RawItem
  deriving DecidableEq, Repr

/-- A reconstructed run state, as far as the decision handler inspects it:
its list of open interruptions (`state.get_interruptions()`). -/
structure RunStateE where
  interruptions : List Suspension
  deriving DecidableEq, Repr

/-- The loop-body test of the matcher (lines 514-520): the interruption must
carry a `raw_item`, its `call_id` must be truthy, and it must equal the
decision's `interruption_id`. -/
def suspensionMatches (targetId : String) (s : Suspension) : Bool :=
  match s.rawItem with
  | none => false
  | some r =>
    match r.callId with
    | none => false
    | some cid => cid ≠ "" && cid = targetId

/-- The matcher loop of `MyChatKitServer.action` (lines 513-520): scan the
interruptions in order and take the first whose raw tool-call `call_id`
equals the decision's id (`break` on the first hit). -/
def find_matching_interruption (interruptions : List Suspension) (targetId : String) :
    Option Suspension :=
  interruptions.find? (suspensionMatches targetId)

/-! ## Run-state serialization (`save_run_state`, lines 232-329)

`state.to_json()` (library code) either produces a dict of fields or raises;
we model its outcome as an optional association list of Python values.
The `json_serializer` default handler (lines 269-306) handles each value that
`json.dumps` cannot serialize natively: storage handles and DB clients are
excluded (serialized as `null`), Pydantic models are dumped (with a minimal
fallback representation when `model_dump` fails), and any other
non-serializable object is excluded with a diagnostic. -/

/-- A Python value occurring as a field of the state document. -/
inductive PyValue where
  /-- a JSON-native value, rendered directly by `json.dumps` -/
  | prim (s : String)
  /-- a `ChatKitDataStore` storage handle -/
  | dataStore
  /-- a Supabase `Client` -/
  | supabaseClient
  /-- a Pydantic model: `model_dump` either succeeds with `dump` or fails,
  in which case the handler builds the minimal representation `fallback` -/
  | pydantic (dump : Option String) (fallback : String)
  /-- any other non-serializable object -/
  | otherValue (tyName : String)
  deriving DecidableEq, Repr

/-- Field serialization: `json.dumps` for native values composed with the
`json_serializer` default handler for everything else. `none` means the field
is dropped (the handler returned Python `None`, rendered as JSON `null`). -/
def serializeField : PyValue → Option String
  | .prim s => some s
  | .dataStore => none
  | .supabaseClient => none
  | .pydantic (some d) _ => some d
  | .pydantic none fb => some fb
  | .otherValue _ => none

/-- Fields dropped by the best-effort serializer (each one is logged as a
diagnostic by `json_serializer`). -/
def droppedFields (fields : List (String × PyValue)) : List String :=
  (fields.filter fun kv => (serializeField kv.2).isNone).map (·.1)

/-- The call `json.dumps(state_json, default=json_serializer)` (line 308): total once
`to_json` has succeeded, because the default handler never raises — it maps
every non-serializable value to `null`. -/
def dumps (fields : List (String × PyValue)) : String :=
  String.intercalate "," (fields.map fun kv => kv.1 ++ ":" ++ ((serializeField kv.2).getD "null"))

/-! ## The run-state table -/

/-- One row of the `run_states` table. -/
structure RunStateRow where
  threadId : String
  userId : String
  stateData : String
  deriving DecidableEq, Repr

/-- The `run_states` table. -/
abbrev RunStateDB := List RunStateRow

/-- Does a row belong to the given (thread, user) pair? -/
def rowMatches (threadId userId : String) (r : RunStateRow) : Bool :=
  r.threadId == threadId && r.userId == userId

/-- Number of persisted run-state documents for a (thread, user) pair. -/
def countRows (db : RunStateDB) (threadId userId : String) : Nat :=
  (db.filter (rowMatches threadId userId)).length

/-- The function `save_run_state` (lines 232-329). Returns the saved row id (or `None`) and
the resulting table. Without a `user_id` nothing happens; if `state.to_json()`
raises, the exception is caught, logged, and `None` returned with the table
untouched; otherwise any existing rows for the (thread, user) pair are
deleted and the new document inserted. -/
def save_run_state (threadId : String) (userId : Option String)
    (stateToJson : Option (List (String × PyValue))) (db : RunStateDB) :
    Option String × RunStateDB :=
  match userId with
  | none => (none, db)
  | some uid =>
    match stateToJson with
    | none => (none, db)
    | some fields =>
      let cleaned := db.filter fun r => !rowMatches threadId uid r
      let row : RunStateRow := ⟨threadId, uid, dumps fields⟩
      (some ("rs_" ++ threadId ++ "_" ++ uid), cleaned ++ [row])

/-- The function `delete_run_state` (lines 374-395): no-op without a `user_id`, otherwise
remove every row of the (thread, user) pair. -/
def delete_run_state (threadId : String) (userId : Option String) (db : RunStateDB) :
    RunStateDB :=
  match userId with
  | none => db
  | some uid => db.filter fun r => !rowMatches threadId uid r

/-- The function `load_run_state` (lines 331-372): `None` without a `user_id`; otherwise
fetch the row for the (thread, user) pair and reconstruct it with
`RunState.from_json` (library code, modelled by the abstract `fromJson`,
returning `none` when reconstruction fails). -/
def load_run_state (threadId : String) (userId : Option String) (db : RunStateDB)
    (fromJson : String → Option RunStateE) : Option RunStateE :=
  match userId with
  | none => none
  | some uid =>
    match db.find? (rowMatches threadId uid) with
    | none => none
    | some row => fromJson row.stateData

/-! ## The event-identity normalizer (`fix_chatkit_event_ids`, lines 877-973)

The normalizer is a stateful pass over the live event stream. Per pass it
keeps `item_id_map` (placeholder id → generated id), `done_item_ids` (final
ids whose assistant-message "done" event has already been forwarded), and —
abstracting the uuid/timestamp scheme of `Store.generate_item_id` — a counter
feeding an injective id generator. The decision-action method (lines 604-670)
inlines the identical algorithm. -/

/-- Kind of the chat item carried by an event. -/
inductive ItemKind where
  | assistantMessage
  | clientToolCall
  | userMessage
  | widgetItem
  | otherKind
  deriving DecidableEq, Repr

/-- Kind of a transcript stream event: `ThreadItemAddedEvent`,
`ThreadItemDoneEvent`, or any other event (updates, deltas), which the
normalizer passes through untouched. -/
inductive EvKind where
  | added
  | done
  | passthrough
  deriving DecidableEq, Repr

/-- A transcript stream event, restricted to what the normalizer inspects. -/
structure Ev where
  kind : EvKind
  itemKind : ItemKind
  itemId : String
  deriving DecidableEq, Repr

/-- The placeholder test of lines 904/941:
`item.id == '__fake_id__' or not item.id or item.id == 'N/A'`. -/
def isPlaceholder (s : String) : Bool :=
  s == "__fake_id__" || s == "" || s == "N/A"

/-- The method `Store.generate_item_id` (src/api/stores.py, lines 79-87) returns
`cthi_{timestamp}_{random}`; we model the fresh-unique-id contract with a
counter-indexed injective generator. -/
def genId (n : Nat) : String :=
  "cthi_" ++ toString n

/-- Per-pass state of the normalizer. -/
structure NormState where
  itemIdMap : List (String × String)
  doneItemIds : List String
  counter : Nat
  deriving DecidableEq, Repr

/-- The state at the start of a streaming pass (lines 879-882). -/
def initNorm : NormState := ⟨[], [], 0⟩

/-- First-match association lookup, the semantics of `item_id_map[original_id]`. -/
def lookupGen : List (String × String) → String → Option String
  | [], _ => none
  | kv :: rest, k => if kv.1 = k then some kv.2 else lookupGen rest k

/-- Id repair for one added/done event (lines 904-922 and 941-959): a
placeholder id is looked up in the per-pass map and reused, or replaced by a
freshly generated id which is recorded in the map; a valid id is kept. -/
def fixId (st : NormState) (origId : String) : String × NormState :=
  if isPlaceholder origId then
    match lookupGen st.itemIdMap origId with
    | some g => (g, st)
    | none =>
      let g := genId st.counter
      (g, { st with itemIdMap := st.itemIdMap ++ [(origId, g)], counter := st.counter + 1 })
  else (origId, st)

/-- One step of the normalizer on one event: returns the new state, the
event with its repaired id, and whether the event is forwarded. "Done"
events of assistant messages are deduplicated per final id (lines 963-971):
after one has been forwarded, later ones with the same final id are dropped. -/
def normStep (st : NormState) (e : Ev) : NormState × Ev × Bool :=
  match e.kind with
  | .passthrough => (st, e, true)
  | .added =>
    let r := fixId st e.itemId
    (r.2, { e with itemId := r.1 }, true)
  | .done =>
    let r := fixId st e.itemId
    let e' := { e with itemId := r.1 }
    if e.itemKind == ItemKind.assistantMessage && r.1 != "" then
      if r.1 ∈ r.2.doneItemIds then (r.2, e', false)
      else ({ r.2 with doneItemIds := r.2.doneItemIds ++ [r.1] }, e', true)
    else (r.2, e', true)

/-- Run the normalizer over a stream, keeping for every input event its
repaired version and whether it is forwarded (positionally aligned with the
input). -/
def normRun (st : NormState) : List Ev → List (Ev × Bool)
  | [] => []
  | e :: es =>
    let r := normStep st e
    (r.2.1, r.2.2) :: normRun r.1 es

/-- The normalizer state after consuming a stream. -/
def normStateAfter (st : NormState) : List Ev → NormState
  | [] => st
  | e :: es => normStateAfter (normStep st e).1 es

/-- The stream of repaired events, positionally aligned with the input
(dropped events included, with their final ids). -/
def fixedEvents (st : NormState) (events : List Ev) : List Ev :=
  (normRun st events).map (·.1)

/-- The forwarded stream from a given state: repaired events with the dropped
ones removed. -/
def outStream (st : NormState) (events : List Ev) : List Ev :=
  ((normRun st events).filter (·.2)).map (·.1)

/-- The generator `fix_chatkit_event_ids`: the event stream actually yielded to the caller
in one streaming pass. -/
def fix_chatkit_event_ids (events : List Ev) : List Ev :=
  outStream initNorm events

/-! ## History-merge callbacks

The three `session_input_callback` variants passed to the runtime through
`RunConfig`. Conversation items are opaque here. -/

/-- An opaque conversation item handed to a history-merge callback. -/
abbrev HItem := String

/-- The callback `resume_session_input_callback` (lines 563-572), used by the
decision-action resume path: return only the state's new items. -/
def resume_session_input_callback (_historyItems newItems : List HItem) : List HItem :=
  newItems

/-- The callback `session_input_callback` (lines 808-815), used by a fresh turn:
history concatenated with the new items. -/
def session_input_callback (historyItems newItems : List HItem) : List HItem :=
  historyItems ++ newItems

/-- The callback `resume_session_input_callback_respond` (lines 817-824), used by the
`respond` method when it resumes from saved state: history concatenated with
the new items. -/
def resume_session_input_callback_respond (historyItems newItems : List HItem) :
    List HItem :=
  historyItems ++ newItems

/-- The callback `respond` installs in the `RunConfig` it runs with
(lines 826-833 and 850-869): the resume variant when saved state was found,
the standard one otherwise. -/
def respondCallbackUsed (hasSavedState : Bool) : List HItem → List HItem → List HItem :=
  if hasSavedState then resume_session_input_callback_respond else session_input_callback

/-- The callback the decision-action resume path installs (lines 574-577). -/
def actionResumeCallbackUsed : List HItem → List HItem → List HItem :=
  resume_session_input_callback

/-! ## The decision-action and turn flows as effect traces

`MyChatKitServer.action` (tool_approval branch) and `MyChatKitServer.respond`
are embedded as functions from their inputs and collaborator outcomes to the
ordered list of externally observable effects they perform, the way the
request terminates, and the resulting run-state table. -/

/-- Externally observable effects of one request. -/
inductive Effect where
  /-- a server-side `logger.error` (not visible to the caller) -/
  | logErrorE (tag : String)
  /-- the call `state.approve(matching_interruption)` -/
  | approveE (callId : String)
  /-- the call `state.reject(matching_interruption)` -/
  | rejectE (callId : String)
  /-- a `delete_run_state` call executed against the table -/
  | deleteStateE
  /-- execution re-entered via `Runner.run_streamed` on a reconstructed run state -/
  | resumeExecE
  /-- execution started via `Runner.run_streamed` on fresh input -/
  | startFreshE
  /-- a transcript event yielded to the caller -/
  | yieldEventE (e : Ev)
  /-- an approval-request widget streamed to the caller -/
  | yieldWidgetE (callId : Option String)
  /-- a `save_run_state` call executed (`ok` = a row id was returned) -/
  | saveStateE (ok : Bool)
  deriving DecidableEq, Repr

/-- How the request terminates: the stream ends normally, or an
`HTTPException` propagates to the caller. -/
inductive Outcome where
  | completed
  | httpError (code : Nat)
  deriving DecidableEq, Repr

/-- Is an effect observable by the caller of the request? Only yielded
events and widgets are; log lines, DB writes and runtime calls are not. -/
def isCallerVisible : Effect → Bool
  | .yieldEventE _ => true
  | .yieldWidgetE _ => true
  | _ => false

/-- The request context fields the flows read. -/
structure Ctx where
  userId : Option String
  agentId : Option String
  deriving DecidableEq, Repr

/-- The approval widgets streamed by the decision-action path after a resume
that suspended again (lines 689-729): one widget per new interruption that
carries a `raw_item` (its `call_id` may be missing). -/
def widgetEffectsAction (ints : List Suspension) : List Effect :=
  ints.filterMap fun s =>
    match s.rawItem with
    | none => none
    | some r => some (Effect.yieldWidgetE r.callId)

/-- The approval widgets streamed by `respond` (lines 1003-1047): an
interruption without a truthy `call_id` in its raw record is skipped with an
error log; otherwise its widget is streamed. -/
def widgetEffectsRespond (ints : List Suspension) : List Effect :=
  ints.map fun s =>
    match s.rawItem with
    | none => Effect.logErrorE "widget_missing_call_id"
    | some r =>
      if truthy r.callId then Effect.yieldWidgetE r.callId
      else Effect.logErrorE "widget_missing_call_id"

/-- Collaborator outcomes of one request, fixed up front: whether the agent
record exists, how `RunState.from_json` behaves, the events the runtime
streams after (re-)entry, the interruption set it reports once the stream is
drained, whether `result.to_state()` is available, and what
`state.to_json()` returns for the end-of-turn save (`none` = it raises). -/
structure FlowEnv where
  agentFound : Bool
  fromJson : String → Option RunStateE
  runtimeEvents : List Ev
  newInterruptions : List Suspension
  toStateOk : Bool
  stateFields : Option (List (String × PyValue))

/-- The `tool_approval` branch of `MyChatKitServer.action` (lines 419-729).
Order of the source: agent-id guard → agent load (raising `HTTPException`
400/404) → run-state load (missing → log + bare `return`) → interruption-id
guard → matcher (unmatched → log + bare `return`) → verdict dispatch
(unknown → log + bare `return`) → `delete_run_state` → resumed
`Runner.run_streamed` → normalized stream yielded → if the drained run
reports new interruptions, save state and stream approval widgets. -/
def action_tool_approval (ctx : Ctx) (env : FlowEnv)
    (approvalAction : String) (interruptionId : Option String)
    (threadId : String) (db : RunStateDB) :
    List Effect × Outcome × RunStateDB :=
  if !truthy ctx.agentId then ([.logErrorE "no_agent_id"], .completed, db)
  else if ctx.userId = none then ([], .httpError 400, db)
  else if !env.agentFound then ([], .httpError 404, db)
  else
    match load_run_state threadId ctx.userId db env.fromJson with
    | none => ([.logErrorE "no_saved_state"], .completed, db)
    | some st =>
      if !truthy interruptionId then
        ([.logErrorE "missing_interruption_id"], .completed, db)
      else
        let tid := interruptionId.getD ""
        match find_matching_interruption st.interruptions tid with
        | none => ([.logErrorE "unmatched_interruption"], .completed, db)
        | some _ =>
          if approvalAction = "approve" ∨ approvalAction = "reject" then
            let resolveEff :=
              if approvalAction = "approve" then Effect.approveE tid else Effect.rejectE tid
            let db₁ := delete_run_state threadId ctx.userId db
            let streamEffs := (fix_chatkit_event_ids env.runtimeEvents).map Effect.yieldEventE
            let tail :=
              if env.newInterruptions ≠ [] ∧ env.toStateOk then
                let sres := save_run_state threadId ctx.userId env.stateFields db₁
                (Effect.saveStateE sres.1.isSome :: widgetEffectsAction env.newInterruptions,
                  sres.2)
              else ([], db₁)
            (resolveEff :: Effect.deleteStateE :: Effect.resumeExecE :: streamEffs ++ tail.1,
              .completed, tail.2)
          else ([.logErrorE "unknown_approval_action"], .completed, db)

/-- The method `MyChatKitServer.respond` (lines 730-1050). Order of the source: agent-id
guard (raises 400) → agent load (raises 400/404) → run-state load (errors
swallowed, `none` means fresh) → `Runner.run_streamed` on the saved state
with the resume callback, or on the new input with the standard callback →
normalized stream yielded → if the drained run reports interruptions, save
state and stream approval widgets; otherwise delete any leftover state. -/
def respond_flow (ctx : Ctx) (env : FlowEnv) (threadId : String) (db : RunStateDB) :
    List Effect × Outcome × RunStateDB :=
  if !truthy ctx.agentId then ([], .httpError 400, db)
  else if ctx.userId = none then ([], .httpError 400, db)
  else if !env.agentFound then ([], .httpError 404, db)
  else
    let savedState := load_run_state threadId ctx.userId db env.fromJson
    let startEff :=
      match savedState with
      | some _ => Effect.resumeExecE
      | none => Effect.startFreshE
    let streamEffs := (fix_chatkit_event_ids env.runtimeEvents).map Effect.yieldEventE
    let tail :=
      if env.newInterruptions ≠ [] then
        if env.toStateOk then
          let sres := save_run_state threadId ctx.userId env.stateFields db
          (Effect.saveStateE sres.1.isSome :: widgetEffectsRespond env.newInterruptions,
            sres.2)
        else ([], db)
      else ([Effect.deleteStateE], delete_run_state threadId ctx.userId db)
    (startEff :: streamEffs ++ tail.1, .completed, tail.2)

/-- Does every re-entry into execution from persisted state happen only after
the persisted state was deleted? Scans the trace left to right. -/
def delBeforeResume : Bool → List Effect → Bool
  | _, [] => true
  | _, .deleteStateE :: tr => delBeforeResume true tr
  | seen, .resumeExecE :: tr => seen && delBeforeResume seen tr
  | seen, _ :: tr => delBeforeResume seen tr

/-! ## Concrete fixtures used by counterexamples and witnesses -/

/-- A request context with both `user_id` and `agent_id` present. -/
def ctxOk : Ctx := ⟨some "user_1", some "agent_1"⟩

/-- A suspension whose raw tool-call record carries correlation id `call_42`. -/
def suspCall42 : Suspension := ⟨"wrapper_1", some ⟨some "call_42", "get_weather"⟩⟩

/-- A run state with exactly one open suspension, correlation id `call_42`. -/
def stateCall42 : RunStateE := ⟨[suspCall42]⟩

/-- Collaborator outcomes for a quiet resume: the agent exists, reconstruction
yields `stateCall42`, the run streams no events and reports no new
interruptions. -/
def envResume : FlowEnv := ⟨true, fun _ => some stateCall42, [], [], true, none⟩

/-- Collaborator outcomes for a turn that suspends on `call_42` but whose
run state is entirely unconvertible (`state.to_json()` raises). -/
def envSuspendNoSer : FlowEnv := ⟨true, fun _ => none, [], [suspCall42], true, none⟩

/-- A table holding one persisted run state for thread `t1` of `user_1`. -/
def dbOne : RunStateDB := [⟨"t1", "user_1", "doc"⟩]

/-! ## Helper lemmas -/

/-- Filtering with a predicate after filtering with its negation leaves nothing. -/
theorem filter_not_filter {α : Type} (p : α → Bool) (l : List α) :
    (l.filter fun a => !p a).filter p = [] := by
  induction l with
  | nil => rfl
  | cons a l ih =>
    by_cases h : p a <;> simp [List.filter_cons, h, ih]

/-- C1 (counterexample): the claim says every resume-path history-merge
callback returns only the new items, but the callback installed by `respond`
when it resumes from saved state returns the session history concatenated
with the new items. -/
theorem claimC1_counterexample :
    respondCallbackUsed true ["history_item"] ["state_new_item"]
        = ["history_item", "state_new_item"] ∧
    respondCallbackUsed true ["history_item"] ["state_new_item"] ≠ ["state_new_item"] := by
  constructor
  · rfl
  · decide

/-- C1 (amended): the history-merge callback of the decision-action resume
path returns only the new items supplied by the state, while the callback
installed by `respond` when it resumes from persisted state returns the
session history concatenated with the new items. -/
theorem claimC1 (historyItems newItems : List HItem) :
    actionResumeCallbackUsed historyItems newItems = newItems ∧
    respondCallbackUsed true historyItems newItems = historyItems ++ newItems :=
  ⟨rfl, rfl⟩

/-- C6: saving a run state deletes every existing document of the
(conversation, owner) pair and then inserts the new one, so after a
successful save exactly one persisted document exists for that pair —
whatever the table held before. -/
theorem claimC6 (t u : String) (fields : List (String × PyValue)) (db : RunStateDB) :
    countRows (save_run_state t (some u) (some fields) db).2 t u = 1 := by
  show countRows
      ((db.filter fun r => !rowMatches t u r) ++ [⟨t, u, dumps fields⟩]) t u = 1
  unfold countRows
  rw [List.filter_append, filter_not_filter]
  simp [rowMatches]

/-- C2 (counterexample): the claim says every path that re-enters execution
from persisted state deletes that state first, but `respond` resumes from the
loaded state while the document is still in the table, and deletes it only
after the stream has been drained. -/
theorem claimC2_counterexample :
    (respond_flow ctxOk envResume "t1" dbOne).1
        = [Effect.resumeExecE, Effect.deleteStateE] ∧
    delBeforeResume false (respond_flow ctxOk envResume "t1" dbOne).1 = false := by
  constructor
  · rfl
  · rfl

/-- C3 (counterexample): for a decision whose correlation id `call_99` is not
among the open suspensions (`call_42` only), the handler merely logs a
server-side error and ends the stream: the outcome is a normal completion
with no caller-visible effect — a silent no-op success, not a
caller-visible Unmatched error. -/
theorem claimC3_counterexample :
    action_tool_approval ctxOk envResume "approve" (some "call_99") "t1" dbOne
        = ([Effect.logErrorE "unmatched_interruption"], Outcome.completed, dbOne) ∧
    isCallerVisible (Effect.logErrorE "unmatched_interruption") = false := by
  constructor
  · rfl
  · rfl

/-- C4 (counterexample): for a decision arriving with no persisted run state
(empty table), the handler merely logs a server-side error and ends the
stream: the outcome is a normal completion with no caller-visible effect —
nothing is surfaced to the caller. -/
theorem claimC4_counterexample :
    action_tool_approval ctxOk envResume "approve" (some "call_42") "t1" []
        = ([Effect.logErrorE "no_saved_state"], Outcome.completed, []) ∧
    isCallerVisible (Effect.logErrorE "no_saved_state") = false := by
  constructor
  · rfl
  · rfl

/-- C5 (counterexample): when the entire run state is unconvertible
(`state.to_json()` raises), the turn does not fail: the error is swallowed
inside `save_run_state` (which returns `None` and leaves the table
untouched), the approval widget is still streamed, and the turn completes
normally — no `SerializationError` reaches the caller. -/
theorem claimC5_counterexample :
    respond_flow ctxOk envSuspendNoSer "t1" []
        = ([Effect.startFreshE, Effect.saveStateE false,
            Effect.yieldWidgetE (some "call_42")], Outcome.completed, []) := by
  rfl

/-- Once a delete has been seen, the rest of any trace is delete-before-resume. -/
theorem delBeforeResume_true (tr : List Effect) : delBeforeResume true tr = true := by
  induction tr with
  | nil => rfl
  | cons e tr ih => cases e <;> simp [delBeforeResume, ih]

/-- C2 (amended): only the decision-action path deletes the persisted state
before re-entering execution; the `respond` path re-enters execution from
saved state first — resuming is its first effect, so the old document is
still in the table when the resumed run starts, and is deleted only after
the stream has been drained. -/
theorem claimC2 (ctx : Ctx) (env : FlowEnv) (t u : String) (db : RunStateDB) (st : RunStateE)
    (hA : truthy ctx.agentId = true)
    (hU : ctx.userId = some u)
    (hF : env.agentFound = true)
    (hL : load_run_state t ctx.userId db env.fromJson = some st) :
    (∀ (ctx' : Ctx) (env' : FlowEnv) (a : String) (iid : Option String)
        (t' : String) (db' : RunStateDB),
        delBeforeResume false (action_tool_approval ctx' env' a iid t' db').1 = true) ∧
    (respond_flow ctx env t db).1.head? = some Effect.resumeExecE := by
  constructor
  · intro ctx' env' a iid t' db'
    unfold action_tool_approval
    by_cases h1 : (!truthy ctx'.agentId) = true
    · simp [h1, delBeforeResume]
    by_cases h2 : ctx'.userId = none
    · simp [h1, h2, delBeforeResume]
    by_cases h3 : (!env'.agentFound) = true
    · simp [h1, h2, h3, delBeforeResume]
    rcases hload : load_run_state t' ctx'.userId db' env'.fromJson with _ | st'
    · simp [h1, h2, h3, hload, delBeforeResume]
    by_cases h4 : (!truthy iid) = true
    · simp [h1, h2, h3, hload, h4, delBeforeResume]
    rcases hfind : find_matching_interruption st'.interruptions (iid.getD "") with _ | susp
    · simp [h1, h2, h3, hload, h4, hfind, delBeforeResume]
    by_cases h5 : a = "approve" ∨ a = "reject"
    · rcases h5 with h6 | h6 <;>
        simp [h1, h2, h3, hload, h4, hfind, h6, delBeforeResume, delBeforeResume_true]
    · simp [h1, h2, h3, hload, h4, hfind, h5, delBeforeResume]
  · rw [hU] at hL
    simp [respond_flow, hA, hU, hF, hL]

/-- C2 (witness): the hypotheses of `claimC2` hold at the concrete fixture. -/
theorem claimC2_witness :
    (respond_flow ctxOk envResume "t1" dbOne).1.head? = some Effect.resumeExecE :=
  (claimC2 ctxOk envResume "t1" "user_1" dbOne stateCall42
    (by decide) (by decide) (by decide) (by decide)).2

/-- C3 (amended): a decision whose correlation id is not among the open
suspensions of the loaded run state makes the handler log a server-side
error and end the stream early: nothing is resumed, deleted, or yielded, the
table is unchanged, and the caller observes a normally-completed empty
stream — a silent no-op, with the rejection recorded only in the server
log. -/
theorem claimC3 (ctx : Ctx) (env : FlowEnv) (a : String) (iid : Option String)
    (t u : String) (db : RunStateDB) (st : RunStateE)
    (hA : truthy ctx.agentId = true)
    (hU : ctx.userId = some u)
    (hF : env.agentFound = true)
    (hL : load_run_state t ctx.userId db env.fromJson = some st)
    (hI : truthy iid = true)
    (hM : find_matching_interruption st.interruptions (iid.getD "") = none) :
    action_tool_approval ctx env a iid t db
      = ([Effect.logErrorE "unmatched_interruption"], Outcome.completed, db) := by
  rw [hU] at hL
  simp [action_tool_approval, hA, hU, hF, hL, hI, hM]

/-- C3 (witness): the hypotheses of `claimC3` hold at the concrete fixture. -/
theorem claimC3_witness :
    action_tool_approval ctxOk envResume "reject" (some "call_99") "t1" dbOne
      = ([Effect.logErrorE "unmatched_interruption"], Outcome.completed, dbOne) :=
  claimC3 ctxOk envResume "reject" (some "call_99") "t1" "user_1" dbOne stateCall42
    (by decide) (by decide) (by decide) (by decide) (by decide) (by decide)

/-- C4 (amended): a decision arriving when no run state can be loaded for the
conversation is terminal for that decision — nothing is resumed or retried —
but it is not surfaced to the caller: the handler logs a server-side error
and ends the stream, and the caller observes a normally-completed empty
stream. -/
theorem claimC4 (ctx : Ctx) (env : FlowEnv) (a : String) (iid : Option String)
    (t u : String) (db : RunStateDB)
    (hA : truthy ctx.agentId = true)
    (hU : ctx.userId = some u)
    (hF : env.agentFound = true)
    (hL : load_run_state t ctx.userId db env.fromJson = none) :
    action_tool_approval ctx env a iid t db
      = ([Effect.logErrorE "no_saved_state"], Outcome.completed, db) := by
  rw [hU] at hL
  simp [action_tool_approval, hA, hU, hF, hL]

/-- C4 (witness): the hypotheses of `claimC4` hold at the concrete fixture. -/
theorem claimC4_witness :
    action_tool_approval ctxOk envResume "approve" (some "call_42") "t1" []
      = ([Effect.logErrorE "no_saved_state"], Outcome.completed, []) :=
  claimC4 ctxOk envResume "approve" (some "call_42") "t1" "user_1" []
    (by decide) (by decide) (by decide) (by decide)

/-- C5 (amended): when the entire run state cannot be converted, the failure
is caught inside `save_run_state`, which logs it and returns `None` with the
table untouched — no state is saved, but nothing is surfaced and the turn
still completes normally. Only the per-field half of the claim holds:
individual unconvertible fields (storage handles, DB clients, other
non-serializable objects) are dropped with a diagnostic while the save
succeeds. -/
theorem claimC5 (ctx : Ctx) (env : FlowEnv) (t u s : String) (db : RunStateDB)
    (fields : List (String × PyValue))
    (hA : truthy ctx.agentId = true)
    (hU : ctx.userId = some u)
    (hF : env.agentFound = true)
    (hS : env.stateFields = none)
    (hI : env.newInterruptions ≠ [])
    (hT : env.toStateOk = true) :
    save_run_state t (some u) none db = (none, db) ∧
    (respond_flow ctx env t db).2.1 = Outcome.completed ∧
    (respond_flow ctx env t db).2.2 = db ∧
    (save_run_state t (some u) (some fields) db).1.isSome = true ∧
    serializeField PyValue.dataStore = none ∧
    serializeField PyValue.supabaseClient = none ∧
    serializeField (PyValue.otherValue s) = none := by
  refine ⟨rfl, ?_, ?_, by simp [save_run_state], rfl, rfl, rfl⟩
  · simp [respond_flow, hA, hU, hF, hS, hI, hT, save_run_state]
  · simp [respond_flow, hA, hU, hF, hS, hI, hT, save_run_state]

/-- C5 (witness): the hypotheses of `claimC5` hold at the concrete fixture. -/
theorem claimC5_witness :
    (respond_flow ctxOk envSuspendNoSer "t1" []).2.1 = Outcome.completed ∧
    (respond_flow ctxOk envSuspendNoSer "t1" []).2.2 = [] :=
  let h := claimC5 ctxOk envSuspendNoSer "t1" "user_1" "ThreadMetadata" [] []
    (by decide) (by decide) (by decide) (by decide) (by decide) (by decide)
  ⟨h.2.1, h.2.2.1⟩

/-- C10: a decision whose verdict is neither "approve" nor "reject" makes the
handler return before any external mutation: no persisted state is deleted,
execution is not resumed, no caller-visible event is emitted, and the table
is unchanged — on every path of the handler. -/
theorem claimC10 (ctx : Ctx) (env : FlowEnv) (a : String) (iid : Option String)
    (t : String) (db : RunStateDB)
    (ha : a ≠ "approve") (hr : a ≠ "reject") :
    Effect.deleteStateE ∉ (action_tool_approval ctx env a iid t db).1 ∧
    Effect.resumeExecE ∉ (action_tool_approval ctx env a iid t db).1 ∧
    (∀ e ∈ (action_tool_approval ctx env a iid t db).1, isCallerVisible e = false) ∧
    (action_tool_approval ctx env a iid t db).2.2 = db := by
  unfold action_tool_approval
  by_cases h1 : (!truthy ctx.agentId) = true
  · simp [h1, isCallerVisible]
  by_cases h2 : ctx.userId = none
  · simp [h1, h2, isCallerVisible]
  by_cases h3 : (!env.agentFound) = true
  · simp [h1, h2, h3, isCallerVisible]
  rcases hload : load_run_state t ctx.userId db env.fromJson with _ | st
  · simp [h1, h2, h3, hload, isCallerVisible]
  by_cases h4 : (!truthy iid) = true
  · simp [h1, h2, h3, hload, h4, isCallerVisible]
  rcases hfind : find_matching_interruption st.interruptions (iid.getD "") with _ | susp
  · simp [h1, h2, h3, hload, h4, hfind, isCallerVisible]
  have h5 : ¬(a = "approve" ∨ a = "reject") := by simp [ha, hr]
  simp [h1, h2, h3, hload, h4, hfind, h5, isCallerVisible]

/-- C10 (witness): the hypotheses of `claimC10` hold at the concrete fixture. -/
theorem claimC10_witness :
    Effect.deleteStateE ∉ (action_tool_approval ctxOk envResume "maybe" (some "call_42") "t1" dbOne).1 ∧
    Effect.resumeExecE ∉ (action_tool_approval ctxOk envResume "maybe" (some "call_42") "t1" dbOne).1 :=
  let h := claimC10 ctxOk envResume "maybe" (some "call_42") "t1" dbOne
    (by decide) (by decide)
  ⟨h.1, h.2.1⟩

/-- Rewrite the wrapper identifier of a suspension, leaving the raw
tool-call record untouched. -/
def relabelWrapper (f : String → String) (s : Suspension) : Suspension :=
  { s with wrapperId := f s.wrapperId }

/-- The matcher's test reads only the raw tool-call record, so it is blind
to the wrapper identifier. -/
theorem suspensionMatches_relabel (f : String → String) (tid : String) (s : Suspension) :
    suspensionMatches tid (relabelWrapper f s) = suspensionMatches tid s := rfl

/-- Relabeling wrapper identifiers commutes with the matcher. -/
theorem find_matching_relabel (f : String → String) (ints : List Suspension) (tid : String) :
    find_matching_interruption (ints.map (relabelWrapper f)) tid
      = (find_matching_interruption ints tid).map (relabelWrapper f) := by
  induction ints with
  | nil => rfl
  | cons s ints ih =>
    unfold find_matching_interruption at ih ⊢
    by_cases h : suspensionMatches tid s = true
    · simp [List.find?_cons_of_pos, h, suspensionMatches_relabel]
    · rw [List.map_cons, List.find?_cons_of_neg _ (by simp [suspensionMatches_relabel, h]),
        List.find?_cons_of_neg _ (by simp [h]), ih]

/-- The matcher returns the first matching suspension in iteration order. -/
theorem find_matching_first (pre post : List Suspension) (s : Suspension) (tid : String)
    (hs : suspensionMatches tid s = true)
    (hpre : ∀ x ∈ pre, suspensionMatches tid x = false) :
    find_matching_interruption (pre ++ s :: post) tid = some s := by
  unfold find_matching_interruption
  induction pre with
  | nil => simp [List.find?_cons_of_pos, hs]
  | cons a pre ih =>
    rw [List.cons_append,
      List.find?_cons_of_neg _ (by simp [hpre a (by simp)])]
    exact ih fun x hx => hpre x (by simp [hx])

/-- C7: the interruption matcher keys solely on the tool-call correlation id
inside the raw tool-call record — relabeling every wrapper identifier does
not change the outcome; a decision with an absent (missing or empty)
correlation id makes the handler return immediately without matching; and
when several suspensions carry the matching id, the first in iteration
order is returned. -/
theorem claimC7 (pre post ints : List Suspension) (s : Suspension) (tid : String)
    (f : String → String)
    (ctx : Ctx) (env : FlowEnv) (a : String) (iid : Option String)
    (t u : String) (db : RunStateDB) (st : RunStateE)
    (hs : suspensionMatches tid s = true)
    (hpre : ∀ x ∈ pre, suspensionMatches tid x = false)
    (hA : truthy ctx.agentId = true)
    (hU : ctx.userId = some u)
    (hF : env.agentFound = true)
    (hL : load_run_state t ctx.userId db env.fromJson = some st)
    (hI : truthy iid = false) :
    find_matching_interruption (pre ++ s :: post) tid = some s ∧
    find_matching_interruption (ints.map (relabelWrapper f)) tid
      = (find_matching_interruption ints tid).map (relabelWrapper f) ∧
    action_tool_approval ctx env a iid t db
      = ([Effect.logErrorE "missing_interruption_id"], Outcome.completed, db) := by
  refine ⟨find_matching_first pre post s tid hs hpre, find_matching_relabel f ints tid, ?_⟩
  rw [hU] at hL
  simp [action_tool_approval, hA, hU, hF, hL, hI]

/-- C7 (witness): the hypotheses of `claimC7` hold at a concrete fixture:
a non-matching suspension ahead of two suspensions sharing `call_42`. -/
theorem claimC7_witness :
    find_matching_interruption
        ([⟨"wrapper_0", some ⟨some "call_7", "switch_theme"⟩⟩] ++
          suspCall42 :: [⟨"wrapper_2", some ⟨some "call_42", "get_weather"⟩⟩]) "call_42"
      = some suspCall42 ∧
    action_tool_approval ctxOk envResume "approve" none "t1" dbOne
      = ([Effect.logErrorE "missing_interruption_id"], Outcome.completed, dbOne) :=
  let h := claimC7 [⟨"wrapper_0", some ⟨some "call_7", "switch_theme"⟩⟩]
    [⟨"wrapper_2", some ⟨some "call_42", "get_weather"⟩⟩] [] suspCall42 "call_42"
    (fun w => w ++ "_relabelled") ctxOk envResume "approve" none "t1" "user_1" dbOne
    stateCall42 (by decide) (by decide) (by decide) (by decide) (by decide) (by decide)
    (by decide)
  ⟨h.1, h.2.2⟩

/-- An existing binding survives extending the map on the right. -/
theorem lookupGen_append_some (m m' : List (String × String)) (k : String) (v : String)
    (h : lookupGen m k = some v) : lookupGen (m ++ m') k = some v := by
  induction m with
  | nil => simp [lookupGen] at h
  | cons kv m ih =>
    by_cases hk : kv.1 = k
    · simpa [lookupGen, hk] using h
    · simp [lookupGen, hk] at h ⊢
      exact ih h

theorem lookupGen_append_none (m m' : List (String × String)) (k : String)
    (h : lookupGen m k = none) : lookupGen (m ++ m') k = lookupGen m' k := by
  induction m with
  | nil => rfl
  | cons kv m ih =>
    by_cases hk : kv.1 = k
    · simp [lookupGen, hk] at h
    · simp [lookupGen, hk] at h ⊢
      exact ih h

theorem lookupGen_mem (m : List (String × String)) (k v : String)
    (h : lookupGen m k = some v) : (k, v) ∈ m := by
  induction m with
  | nil => simp [lookupGen] at h
  | cons kv m ih =>
    by_cases hk : kv.1 = k
    · obtain ⟨k1, v1⟩ := kv
      subst hk
      simp [lookupGen] at h
      subst h
      exact List.mem_cons_self _ _
    · simp [lookupGen, hk] at h
      exact List.mem_cons_of_mem _ (ih h)

/-- The output id of processing one event. -/
def stepOutId (st : NormState) (e : Ev) : String := ((normStep st e).2.1).itemId

theorem stepOutId_eq_fixId (st : NormState) (e : Ev) (h : e.kind ≠ EvKind.passthrough) :
    stepOutId st e = (fixId st e.itemId).1 := by
  unfold stepOutId normStep
  rcases e with ⟨k, ik, i⟩
  cases k
  · rfl
  · simp only []
    split <;> (try split) <;> rfl
  · exact absurd rfl h

theorem normStep_map (st : NormState) (e : Ev) (h : e.kind ≠ EvKind.passthrough) :
    (normStep st e).1.itemIdMap = (fixId st e.itemId).2.itemIdMap := by
  unfold normStep
  rcases e with ⟨k, ik, i⟩
  cases k
  · rfl
  · simp only []
    split <;> (try split) <;> rfl
  · exact absurd rfl h

theorem lookup_fixId_some (st : NormState) (p k g : String)
    (h : lookupGen st.itemIdMap k = some g) :
    lookupGen (fixId st p).2.itemIdMap k = some g := by
  unfold fixId
  by_cases hp : isPlaceholder p = true
  · rw [if_pos hp]
    cases hl : lookupGen st.itemIdMap p
    · simpa using lookupGen_append_some _ _ _ _ h
    · simpa using h
  · rw [if_neg hp]
    exact h

theorem lookup_normStep_some (st : NormState) (e : Ev) (k g : String)
    (h : lookupGen st.itemIdMap k = some g) :
    lookupGen (normStep st e).1.itemIdMap k = some g := by
  by_cases hk : e.kind = EvKind.passthrough
  · unfold normStep
    rw [hk]
    exact h
  · rw [normStep_map st e hk]
    exact lookup_fixId_some st e.itemId k g h

theorem lookup_after_fold (st : NormState) (es : List Ev) (k g : String)
    (h : lookupGen st.itemIdMap k = some g) :
    lookupGen (normStateAfter st es).itemIdMap k = some g := by
  induction es generalizing st with
  | nil => exact h
  | cons e es ih => exact ih _ (lookup_normStep_some st e k g h)

theorem lookup_after_step (st : NormState) (e : Ev)
    (hk : e.kind ≠ EvKind.passthrough) (hp : isPlaceholder e.itemId = true) :
    lookupGen (normStep st e).1.itemIdMap e.itemId = some (stepOutId st e) := by
  rw [normStep_map st e hk, stepOutId_eq_fixId st e hk]
  unfold fixId
  rw [if_pos hp]
  cases hl : lookupGen st.itemIdMap e.itemId
  · simp only []
    rw [lookupGen_append_none _ _ _ hl]
    simp [lookupGen]
  · simpa using hl

theorem stepOutId_of_lookup (st : NormState) (e : Ev) (g : String)
    (hk : e.kind ≠ EvKind.passthrough) (hp : isPlaceholder e.itemId = true)
    (h : lookupGen st.itemIdMap e.itemId = some g) : stepOutId st e = g := by
  rw [stepOutId_eq_fixId st e hk]
  unfold fixId
  rw [if_pos hp, h]

theorem stepOutId_not_placeholder (st : NormState) (e : Ev)
    (hk : e.kind ≠ EvKind.passthrough) (hp : isPlaceholder e.itemId = false) :
    stepOutId st e = e.itemId := by
  rw [stepOutId_eq_fixId st e hk]
  unfold fixId
  rw [hp]
  simp

/-- Every value recorded in the placeholder map is a generated id. -/
def MapGen (m : List (String × String)) : Prop := ∀ kv ∈ m, ∃ n, kv.2 = genId n

theorem mapGen_fixId (st : NormState) (p : String) (h : MapGen st.itemIdMap) :
    MapGen (fixId st p).2.itemIdMap := by
  unfold fixId
  by_cases hp : isPlaceholder p = true
  · rw [if_pos hp]
    cases hl : lookupGen st.itemIdMap p
    · intro kv hkv
      simp only [List.mem_append, List.mem_singleton] at hkv
      rcases hkv with hkv | hkv
      · exact h kv hkv
      · exact ⟨st.counter, by rw [hkv]⟩
    · exact h
  · rw [if_neg hp]
    exact h

theorem mapGen_normStep (st : NormState) (e : Ev) (h : MapGen st.itemIdMap) :
    MapGen (normStep st e).1.itemIdMap := by
  by_cases hk : e.kind = EvKind.passthrough
  · unfold normStep
    rw [hk]
    exact h
  · rw [normStep_map st e hk]
    exact mapGen_fixId st e.itemId h

theorem mapGen_fold (st : NormState) (es : List Ev) (h : MapGen st.itemIdMap) :
    MapGen (normStateAfter st es).itemIdMap := by
  induction es generalizing st with
  | nil => exact h
  | cons e es ih => exact ih _ (mapGen_normStep st e h)

theorem stepOutId_genId (st : NormState) (e : Ev)
    (hk : e.kind ≠ EvKind.passthrough) (hp : isPlaceholder e.itemId = true)
    (hm : MapGen st.itemIdMap) : ∃ n, stepOutId st e = genId n := by
  rw [stepOutId_eq_fixId st e hk]
  unfold fixId
  rw [if_pos hp]
  cases hl : lookupGen st.itemIdMap e.itemId with
  | none => exact ⟨st.counter, rfl⟩
  | some g =>
    obtain ⟨n, hn⟩ := hm _ (lookupGen_mem _ _ _ hl)
    exact ⟨n, by simpa using hn⟩

theorem normRun_append (st : NormState) (es es' : List Ev) :
    normRun st (es ++ es') = normRun st es ++ normRun (normStateAfter st es) es' := by
  induction es generalizing st with
  | nil => rfl
  | cons e es ih => simp [normRun, normStateAfter, ih]

theorem normStateAfter_append (st : NormState) (es es' : List Ev) :
    normStateAfter st (es ++ es') = normStateAfter (normStateAfter st es) es' := by
  induction es generalizing st with
  | nil => rfl
  | cons e es ih => simp [normStateAfter, ih]

theorem fixedEvents_append (st : NormState) (es es' : List Ev) :
    fixedEvents st (es ++ es') = fixedEvents st es ++ fixedEvents (normStateAfter st es) es' := by
  simp [fixedEvents, normRun_append]

theorem fixedEvents_cons (st : NormState) (e : Ev) (es : List Ev) :
    fixedEvents st (e :: es) = (normStep st e).2.1 :: fixedEvents (normStep st e).1 es := rfl

theorem fixedEvents_length (st : NormState) (es : List Ev) :
    (fixedEvents st es).length = es.length := by
  induction es generalizing st with
  | nil => rfl
  | cons e es ih => simp [fixedEvents_cons, ih]

theorem fixedEvents_get_pos (st : NormState) (es₁ rest : List Ev) (e : Ev) :
    (fixedEvents st (es₁ ++ e :: rest)).get? es₁.length
      = some ((normStep (normStateAfter st es₁) e).2.1) := by
  rw [fixedEvents_append, List.get?_eq_getElem?, List.getElem?_append_right
      (by rw [fixedEvents_length]), fixedEvents_length, Nat.sub_self, fixedEvents_cons]
  simp

/-- C8: within one streaming pass, two added/done events carrying the same
original item id end up carrying the same output id — in particular the
"added" and the "done" event of one item agree — and when that original id
is a placeholder (the `__fake_id__` sentinel, an empty id, or `N/A`) the
output id is one produced by the id generator: generated fresh at the first
occurrence and reused by every later event with the same placeholder. -/
theorem claimC8 (es₁ es₂ es₃ : List Ev) (a b : Ev)
    (ha : a.kind ≠ EvKind.passthrough) (hb : b.kind ≠ EvKind.passthrough)
    (hid : b.itemId = a.itemId) :
    ((fixedEvents initNorm (es₁ ++ a :: (es₂ ++ b :: es₃))).get? es₁.length).map Ev.itemId
      = ((fixedEvents initNorm (es₁ ++ a :: (es₂ ++ b :: es₃))).get?
          (es₁.length + 1 + es₂.length)).map Ev.itemId
    ∧ (isPlaceholder a.itemId = true →
        ∃ n, ((fixedEvents initNorm (es₁ ++ a :: (es₂ ++ b :: es₃))).get? es₁.length).map
            Ev.itemId = some (genId n)) := by
  have hA : (fixedEvents initNorm (es₁ ++ a :: (es₂ ++ b :: es₃))).get? es₁.length
      = some ((normStep (normStateAfter initNorm es₁) a).2.1) := fixedEvents_get_pos _ _ _ _
  have hre : es₁ ++ a :: (es₂ ++ b :: es₃) = (es₁ ++ a :: es₂) ++ b :: es₃ := by
    simp [List.append_assoc]
  have hlen : es₁.length + 1 + es₂.length = (es₁ ++ a :: es₂).length := by
    simp [List.length_append]
    omega
  have hB : (fixedEvents initNorm (es₁ ++ a :: (es₂ ++ b :: es₃))).get?
      (es₁.length + 1 + es₂.length)
      = some ((normStep (normStateAfter initNorm (es₁ ++ a :: es₂)) b).2.1) := by
    rw [hre, hlen]
    exact fixedEvents_get_pos _ _ _ _
  have hst : normStateAfter initNorm (es₁ ++ a :: es₂)
      = normStateAfter (normStep (normStateAfter initNorm es₁) a).1 es₂ := by
    rw [normStateAfter_append]
    rfl
  constructor
  · rw [hA, hB]
    simp only [Option.map_some']
    show some (stepOutId (normStateAfter initNorm es₁) a)
        = some (stepOutId (normStateAfter initNorm (es₁ ++ a :: es₂)) b)
    by_cases hp : isPlaceholder a.itemId = true
    · have hg : lookupGen (normStep (normStateAfter initNorm es₁) a).1.itemIdMap a.itemId
          = some (stepOutId (normStateAfter initNorm es₁) a) :=
        lookup_after_step _ a ha hp
      have hg₂ : lookupGen (normStateAfter initNorm (es₁ ++ a :: es₂)).itemIdMap a.itemId
          = some (stepOutId (normStateAfter initNorm es₁) a) := by
        rw [hst]
        exact lookup_after_fold _ es₂ _ _ hg
      rw [stepOutId_of_lookup _ b _ hb (by rw [hid]; exact hp) (by rw [hid]; exact hg₂)]
    · have hp' : isPlaceholder a.itemId = false := by simpa using hp
      rw [stepOutId_not_placeholder _ a ha hp',
        stepOutId_not_placeholder _ b hb (by rw [hid]; exact hp'), hid]
  · intro hp
    rw [hA]
    obtain ⟨n, hn⟩ := stepOutId_genId (normStateAfter initNorm es₁) a ha hp
      (mapGen_fold initNorm es₁ (by intro kv hkv; simp [initNorm] at hkv))
    exact ⟨n, by simp only [Option.map_some']; exact congrArg some hn⟩

/-- The test for a forwarded terminal assistant-message event with final id `x`. -/
def isDoneAssistWith (x : String) (e : Ev) : Bool :=
  e.kind == EvKind.done && e.itemKind == ItemKind.assistantMessage && e.itemId == x

theorem fixId_doneItemIds (st : NormState) (p : String) :
    (fixId st p).2.doneItemIds = st.doneItemIds := by
  unfold fixId
  split <;> (try split) <;> rfl

theorem normStep_passthrough_eq (st : NormState) (ik : ItemKind) (i : String) :
    normStep st ⟨EvKind.passthrough, ik, i⟩ = (st, ⟨EvKind.passthrough, ik, i⟩, true) := rfl

theorem normStep_added_eq (st : NormState) (ik : ItemKind) (i : String) :
    normStep st ⟨EvKind.added, ik, i⟩
      = ((fixId st i).2, ⟨EvKind.added, ik, (fixId st i).1⟩, true) := rfl

theorem normStep_done_eq (st : NormState) (ik : ItemKind) (i : String) :
    normStep st ⟨EvKind.done, ik, i⟩
      = (if (ik == ItemKind.assistantMessage && (fixId st i).1 != "") = true then
          (if (fixId st i).1 ∈ (fixId st i).2.doneItemIds then
            ((fixId st i).2, ⟨EvKind.done, ik, (fixId st i).1⟩, false)
          else
            ({ (fixId st i).2 with
                doneItemIds := (fixId st i).2.doneItemIds ++ [(fixId st i).1] },
              ⟨EvKind.done, ik, (fixId st i).1⟩, true))
        else ((fixId st i).2, ⟨EvKind.done, ik, (fixId st i).1⟩, true)) := rfl

theorem normRun_cons (st : NormState) (e : Ev) (es : List Ev) :
    normRun st (e :: es)
      = ((normStep st e).2.1, (normStep st e).2.2) :: normRun (normStep st e).1 es := rfl

theorem min_one_succ (n : Nat) : min 1 (n + 1) = 1 := by
  rw [Nat.min_def, if_pos (Nat.succ_le_succ (Nat.zero_le n))]

theorem outStream_cons (st : NormState) (e : Ev) (es : List Ev) :
    outStream st (e :: es)
      = (if (normStep st e).2.2 = true then [(normStep st e).2.1] else [])
          ++ outStream (normStep st e).1 es := by
  unfold outStream
  rw [normRun_cons]
  cases h : (normStep st e).2.2 <;> simp [List.filter_cons, h]

theorem outStream_sublist (st : NormState) (es : List Ev) :
    (outStream st es).Sublist (fixedEvents st es) := by
  induction es generalizing st with
  | nil => simp [outStream, fixedEvents, normRun]
  | cons e es ih =>
    rw [outStream_cons, fixedEvents_cons]
    cases h : (normStep st e).2.2
    · rw [if_neg (by simp), List.nil_append]
      exact (ih (normStep st e).1).cons _
    · rw [if_pos rfl, List.singleton_append]
      exact (ih (normStep st e).1).cons₂ _

theorem outStream_countP (st : NormState) (es : List Ev) (x : String) (hx : x ≠ "") :
    (outStream st es).countP (isDoneAssistWith x)
      = if x ∈ st.doneItemIds then 0
        else min 1 ((fixedEvents st es).countP (isDoneAssistWith x)) := by
  induction es generalizing st with
  | nil => simp [outStream, fixedEvents, normRun]
  | cons e es ih =>
    rw [outStream_cons, fixedEvents_cons]
    rcases e with ⟨k, ik, i⟩
    cases k with
    | passthrough =>
      have hpred : isDoneAssistWith x ⟨EvKind.passthrough, ik, i⟩ = false := by
        simp [isDoneAssistWith]
      rw [normStep_passthrough_eq]
      simp [List.countP_cons, hpred, ih st]
    | added =>
      have hpred : isDoneAssistWith x ⟨EvKind.added, ik, (fixId st i).1⟩ = false := by
        simp [isDoneAssistWith]
      rw [normStep_added_eq]
      simp [List.countP_cons, hpred, ih, fixId_doneItemIds]
    | done =>
      by_cases hc : (ik == ItemKind.assistantMessage && (fixId st i).1 != "") = true
      · by_cases hmem : (fixId st i).1 ∈ (fixId st i).2.doneItemIds
        · rw [normStep_done_eq, if_pos hc, if_pos hmem]
          rw [fixId_doneItemIds] at hmem
          by_cases hx2 : (fixId st i).1 = x
          · have hxmem : x ∈ st.doneItemIds := by rw [← hx2]; exact hmem
            simp [ih, fixId_doneItemIds, hxmem]
          · have hpred : isDoneAssistWith x ⟨EvKind.done, ik, (fixId st i).1⟩ = false := by
              have hne : ¬((fixId st i).1 = x) := hx2
              simp [isDoneAssistWith, hne]
            simp [List.countP_cons, hpred, ih, fixId_doneItemIds]
        · rw [normStep_done_eq, if_pos hc, if_neg hmem]
          rw [fixId_doneItemIds] at hmem
          have hik : ik = ItemKind.assistantMessage := by
            have h1 := (Bool.and_eq_true _ _).mp hc
            exact beq_iff_eq.mp h1.1
          by_cases hx2 : (fixId st i).1 = x
          · have hxnot : x ∉ st.doneItemIds := by rw [← hx2]; exact hmem
            have hpred : isDoneAssistWith x ⟨EvKind.done, ik, (fixId st i).1⟩ = true := by
              simp [isDoneAssistWith, hik, hx2]
            have hxin : x ∈ (st.doneItemIds ++ [(fixId st i).1]) := by
              simp [hx2]
            simp [List.countP_cons, hpred, ih, fixId_doneItemIds, hxin, hxnot, min_one_succ]
          · have hne : ¬((fixId st i).1 = x) := hx2
            have hne' : ¬(x = (fixId st i).1) := fun h => hx2 h.symm
            have hpred : isDoneAssistWith x ⟨EvKind.done, ik, (fixId st i).1⟩ = false := by
              simp [isDoneAssistWith, hne]
            simp [List.countP_cons, hpred, ih, fixId_doneItemIds, List.mem_append, hne']
      · rw [normStep_done_eq, if_neg hc]
        have hpred : isDoneAssistWith x ⟨EvKind.done, ik, (fixId st i).1⟩ = false := by
          by_cases hik : ik = ItemKind.assistantMessage
          · have hidq : (fixId st i).1 = "" := by
              simp [hik] at hc
              exact hc
            have hxe : ¬((fixId st i).1 = x) := by
              rw [hidq]
              exact fun h => hx h.symm
            simp [isDoneAssistWith, hxe]
          · simp [isDoneAssistWith, hik]
        simp [List.countP_cons, hpred, ih, fixId_doneItemIds]

/-- C9: terminal ("done") events of assistant messages are deduplicated per
final id within one streaming pass — the forwarded stream carries
`min 1 k` of the `k` repaired terminal events with a given final id, so of
two "done" events with the same final id exactly one is forwarded and the
rest are dropped silently — and the forwarded stream is a sublist of the
repaired stream, preserving the relative order of all non-dropped events. -/
theorem claimC9 (es : List Ev) (x : String) (hx : x ≠ "") :
    (fix_chatkit_event_ids es).countP (isDoneAssistWith x)
      = min 1 ((fixedEvents initNorm es).countP (isDoneAssistWith x))
    ∧ (fix_chatkit_event_ids es).Sublist (fixedEvents initNorm es) := by
  constructor
  · have h := outStream_countP initNorm es x hx
    simpa [fix_chatkit_event_ids, initNorm] using h
  · exact outStream_sublist initNorm es

/-- C9 (witness): the hypotheses of `claimC9` hold at a stream with two
terminal events for final id `msg_1`. -/
theorem claimC9_witness :
    (fix_chatkit_event_ids [⟨EvKind.done, ItemKind.assistantMessage, "msg_1"⟩,
        ⟨EvKind.done, ItemKind.assistantMessage, "msg_1"⟩]).countP (isDoneAssistWith "msg_1")
      = min 1 ((fixedEvents initNorm [⟨EvKind.done, ItemKind.assistantMessage, "msg_1"⟩,
          ⟨EvKind.done, ItemKind.assistantMessage, "msg_1"⟩]).countP
            (isDoneAssistWith "msg_1")) :=
  (claimC9 [⟨EvKind.done, ItemKind.assistantMessage, "msg_1"⟩,
    ⟨EvKind.done, ItemKind.assistantMessage, "msg_1"⟩] "msg_1" (by decide)).1

/-- C8 (witness): the hypotheses of `claimC8` hold at a stream whose added
and done events both carry the `__fake_id__` placeholder. -/
theorem claimC8_witness :
    ((fixedEvents initNorm [⟨EvKind.added, ItemKind.assistantMessage, "__fake_id__"⟩,
        ⟨EvKind.done, ItemKind.assistantMessage, "__fake_id__"⟩]).get? 0).map Ev.itemId
      = ((fixedEvents initNorm [⟨EvKind.added, ItemKind.assistantMessage, "__fake_id__"⟩,
          ⟨EvKind.done, ItemKind.assistantMessage, "__fake_id__"⟩]).get? 1).map Ev.itemId
    ∧ ∃ n, ((fixedEvents initNorm [⟨EvKind.added, ItemKind.assistantMessage, "__fake_id__"⟩,
          ⟨EvKind.done, ItemKind.assistantMessage, "__fake_id__"⟩]).get? 0).map Ev.itemId
        = some (genId n) :=
  let h := claimC8 [] [] [] ⟨EvKind.added, ItemKind.assistantMessage, "__fake_id__"⟩
    ⟨EvKind.done, ItemKind.assistantMessage, "__fake_id__"⟩ (by decide) (by decide) rfl
  ⟨h.1, h.2 (by decide)⟩

end ChatKitServer
